import Mathlib

/-!
Verification development for the flask-alcohol repository
(src/flask_alcohol/__init__.py): a shallow embedding, in Lean, of the
registration (field introspection), request pipeline, serializer, index
query construction and route-building code, together with theorems that
settle the specification claims against it.

Conventions of the embedding:
 * Python scalar values (model attribute values, JSON payload values) are
   `PyVal := Option String`; `none` is Python `None` / JSON null.
 * Python dicts keyed by strings are association lists with
   first-match lookup and replace-on-assignment (`dictSet`), so lookup
   agrees with a real dict as long as keys are unique, which `dictSet`
   preserves.
 * Python sets are `Finset String`.
 * Truthiness tests on optional strings (`if s:`) are `truthyO`.
 * Decorated methods (setters, getters, hooks, authorization checks) are
   opaque Lean functions of their explicit arguments; a setter or hook
   signals validation failure through its result (the code's
   `g.failed_validation = True` / raised ValueError or AssertionError),
   and the request flag is only ever or-ed with those signals, matching
   the framework, which never clears the flag after `set_g`.
-/

/-- A Python scalar value: `none` is Python `None` / JSON null. -/
abbrev PyVal := Option String

/-- A model instance's attribute store (`self.<name>`). -/
abbrev PyObj := List (String × PyVal)

/-- Python dict assignment `d[k] = v`: replace an existing binding for `k`,
else append the new binding at the end. -/
def dictSet {α : Type} : List (String × α) → String → α → List (String × α)
  | [], k, v => [(k, v)]
  | (k0, v0) :: rest, k, v =>
    if k0 = k then (k, v) :: rest else (k0, v0) :: dictSet rest k v

/-- The code's `try: d[k].append(x) except KeyError: d[k] = [x]` idiom used
for `__security__`, `__beforereturns__` and `__adjusters__`. -/
def dictAppend (d : List (String × List String)) (k : String) (x : String) :
    List (String × List String) :=
  match List.lookup k d with
  | some l => dictSet d k (l ++ [x])
  | none => dictSet d k [x]

/-- Emptiness of a string through its character list (this, rather than
`String.isEmpty`, so that closed terms evaluate by `decide`/`rfl`). -/
def strEmpty (s : String) : Bool :=
  s.data.isEmpty

/-- Python truthiness of an optional string (`if s:` on a value that is
either absent/None or a string): true iff present and non-empty. -/
def truthyO : Option String → Bool
  | none => false
  | some s => !strEmpty s

/-- Python `a or b` on optional strings (used for `__routeprefix__ or
prefix` and `request.args.get('sort') or cls.__sort__`). -/
def pyOrStr (a b : Option String) : Option String :=
  if truthyO a then a else b

/-- The request's query-string arguments, `request.args`; `argsGet` is
`request.args.get(k)`. -/
def argsGet (args : List (String × String)) (k : String) : Option String :=
  List.lookup k args

/-- Python `s.split(',')` on the character list: `""` gives `[""]`,
consecutive commas give empty items. -/
def splitCommaL : List Char → List (List Char)
  | [] => [[]]
  | c :: rest =>
    let r := splitCommaL rest
    if c = ',' then [] :: r
    else
      match r with
      | h :: t => (c :: h) :: t
      | [] => [[c]]

/-- Python `s.split(',')`. -/
def splitComma (s : String) : List String :=
  (splitCommaL s.data).map (fun l => ⟨l⟩)

/-- Python `int(s)` restricted to the non-negative decimal strings it
accepts; `none` is a raised ValueError. -/
def parseDigits : List Char → Option Nat → Option Nat
  | [], acc => acc
  | c :: rest, acc =>
    if '0' ≤ c ∧ c ≤ '9' then
      parseDigits rest (some ((acc.getD 0) * 10 + (c.toNat - '0'.toNat)))
    else none

/-- Python `int(s)` (see `parseDigits`). -/
def pyInt (s : String) : Option Nat :=
  parseDigits s.data none

/-! ## Field introspection (`APIMixin.register`)

`__columndefaults__` / `__relationshipdefaults__` are the kind-specific
default api-info dicts; a declaration's `info={...}` dict is an
`InfoOverride` (each key optionally present), and `mergeInfo` is the
`api_info = defaults.copy(); api_info.update(value.comparator.info)` merge. -/

/-- One resolved api-info dict: the six keys of `__columndefaults__`.
The source's `example` key is called `example_val` (`example` is a Lean
keyword). -/
structure ApiInfo where
  public : Bool
  defer : Bool
  set_by : Option String
  example_val : Option String
  input_type : Option String
  label : Option String
deriving Repr, DecidableEq

/-- A declaration-time `info={...}` dict: each api-info key optionally
overridden. -/
structure InfoOverride where
  public : Option Bool
  defer : Option Bool
  set_by : Option (Option String)
  example_val : Option (Option String)
  input_type : Option (Option String)
  label : Option (Option String)
deriving Repr, DecidableEq

/-- The empty `info` dict (no overrides). -/
def noOverride : InfoOverride :=
  ⟨none, none, none, none, none, none⟩

/-- `APIMixin.__columndefaults__`: columns are public and not deferred. -/
def columndefaults : ApiInfo :=
  ⟨true, false, none, none, none, none⟩

/-- `APIMixin.__relationshipdefaults__`: relationships are private and
deferred by default. -/
def relationshipdefaults : ApiInfo :=
  ⟨false, true, none, none, none, none⟩

/-- `api_info = defaults.copy(); api_info.update(overrides)`. -/
def mergeInfo (d : ApiInfo) (o : InfoOverride) : ApiInfo where
  public := o.public.getD d.public
  defer := o.defer.getD d.defer
  set_by := o.set_by.getD d.set_by
  example_val := o.example_val.getD d.example_val
  input_type := o.input_type.getD d.input_type
  label := o.label.getD d.label

/-- One member found by `inspect.getmembers(cls)` during registration, as
far as `register` distinguishes them: an instrumented column attribute
(with its `primary_key` / `index` / `nullable` flags and `info` dict), an
instrumented relationship attribute (with its `lazy` flag and `info`
dict), an `@extra_field` method, or a decorated method carrying a
`@setter` / `@getter` / `@authorizes` / `@before_return` /
`@adjusts_query` cache. -/
inductive Member where
  | column (name : String) (primary_key : Bool) (index : Bool)
      (nullable : Bool) (info : InfoOverride)
  | relationship (name : String) (lazy : Bool) (info : InfoOverride)
  | extra (name : String) (info : InfoOverride)
  | setterDecl (name : String) (fields : List String)
  | getterDecl (name : String) (fields : List String)
  | checkDecl (name : String) (routes : List String)
  | beforeDecl (name : String) (routes : List String)
  | adjusterDecl (name : String) (routes : List String)
deriving Repr, DecidableEq

/-- The member's attribute name on the class. -/
def Member.name : Member → String
  | .column n _ _ _ _ => n
  | .relationship n _ _ => n
  | .extra n _ => n
  | .setterDecl n _ => n
  | .getterDecl n _ => n
  | .checkDecl n _ => n
  | .beforeDecl n _ => n
  | .adjusterDecl n _ => n

/-- The per-class registry built by `APIMixin.register`: `__infos__`,
`__defaultfields__`, `__indexedfields__`, `__lazyrelationships__`,
`__setters__`, `__getters__`, `__security__`, `__beforereturns__` and
`__adjusters__`.  (`__metas__` and `_predict_input_type` are not embedded:
no claim depends on them.) -/
structure Registry where
  infos : List (String × ApiInfo)
  defaultfields : Finset String
  indexedfields : Finset String
  lazyrelationships : Finset String
  setters : List (String × String)
  getters : List (String × String)
  security : List (String × List String)
  beforereturns : List (String × List String)
  adjusters : List (String × List String)
deriving DecidableEq

/-- Test for a leading underscore in an attribute name (Python
`name.startswith('_')`), through the character list. -/
def startsUnderscore (s : String) : Bool :=
  match s.data with
  | c :: _ => c = '_'
  | [] => false

/-- The registry state created at the top of `register` (all dicts/sets
start empty). -/
def emptyRegistry : Registry :=
  ⟨[], ∅, ∅, ∅, [], [], [], [], []⟩

/-- One iteration of the `for name, value in inspect.getmembers(cls)` loop
of `APIMixin.register`.  Column and relationship attributes whose name
starts with an underscore are skipped ("the _ is to avoid doubling
fields"); an `@extra_field` method is registered only when its merged info
is public. -/
def registerStep (r : Registry) (m : Member) : Registry :=
  match m with
  | .column name pk idx _ info =>
    if startsUnderscore name then r
    else
      let api := mergeInfo columndefaults info
      let indexed := pk || idx
      { r with
        infos := dictSet r.infos name api
        indexedfields := if indexed then insert name r.indexedfields else r.indexedfields
        defaultfields :=
          if api.public && !api.defer then insert name r.defaultfields else r.defaultfields }
  | .relationship name lazy info =>
    if startsUnderscore name then r
    else
      let api := mergeInfo relationshipdefaults info
      { r with
        infos := dictSet r.infos name api
        lazyrelationships := if lazy then insert name r.lazyrelationships else r.lazyrelationships
        defaultfields :=
          if api.public && !api.defer then insert name r.defaultfields else r.defaultfields }
  | .extra name info =>
    let api := mergeInfo columndefaults info
    if api.public then
      { r with
        getters := dictSet r.getters name name
        infos := dictSet r.infos name api
        defaultfields := if !api.defer then insert name r.defaultfields else r.defaultfields }
    else r
  | .setterDecl name fields =>
    { r with setters := fields.foldl (fun d f => dictSet d f name) r.setters }
  | .getterDecl name fields =>
    { r with getters := fields.foldl (fun d f => dictSet d f name) r.getters }
  | .checkDecl name routes =>
    { r with security := routes.foldl (fun d rt => dictAppend d rt name) r.security }
  | .beforeDecl name routes =>
    { r with beforereturns := routes.foldl (fun d rt => dictAppend d rt name) r.beforereturns }
  | .adjusterDecl name routes =>
    { r with adjusters := routes.foldl (fun d rt => dictAppend d rt name) r.adjusters }

/-- `APIMixin.register`: fold the member loop over the empty registry. -/
def register (members : List Member) : Registry :=
  members.foldl registerStep emptyRegistry

/-! ## Included-field resolution (`APIMixin._get_included_fields`)

The per-request memo `g.cached_included_fields` is passed and returned
explicitly as an association list from class name to field set. -/

/-- Known-field test: `x in cls.__infos__`. -/
def knownField (infos : List (String × ApiInfo)) (x : String) : Bool :=
  (List.lookup x infos).isSome

/-- `APIMixin._get_included_fields`, with the request context explicit:
`infos` and `defaults` are the class's `__infos__` and
`__defaultfields__`, `args` is `request.args`, `clsName` is
`cls.__name__` and `cache` is `g.cached_included_fields`.  Returns the
resolved set together with the updated cache. -/
def get_included_fields (infos : List (String × ApiInfo)) (defaults : Finset String)
    (args : List (String × String)) (clsName : String)
    (cache : List (String × Finset String)) :
    Finset String × List (String × Finset String) :=
  match List.lookup clsName cache with
  | some fields => (fields, cache)
  | none =>
    let only_fields := argsGet args "only"
    let fields :=
      if truthyO only_fields then
        ((splitComma (only_fields.getD "")).filter (knownField infos)).toFinset
      else
        let fields := defaults
        let include_fields := argsGet args "include"
        let fields :=
          if truthyO include_fields then
            fields ∪ ((splitComma (include_fields.getD "")).filter (knownField infos)).toFinset
          else fields
        let defer_fields := argsGet args "defer"
        let fields :=
          if truthyO defer_fields then
            fields \ (splitComma (defer_fields.getD "")).toFinset
          else fields
        fields
    (fields, dictSet cache clsName fields)

/-- The included-field set exactly as claim C5 words it: the `only`
whitelist intersected with known fields whenever an `only` parameter is
supplied (present at all); otherwise defaults, unioned with the known
requested `include` fields, minus the requested `defer` fields. -/
def claimedFieldSet (infos : List (String × ApiInfo)) (defaults : Finset String)
    (args : List (String × String)) : Finset String :=
  match argsGet args "only" with
  | some s => ((splitComma s).filter (knownField infos)).toFinset
  | none =>
    (defaults ∪
        ((argsGet args "include").elim ∅
          (fun s => ((splitComma s).filter (knownField infos)).toFinset))) \
      ((argsGet args "defer").elim ∅ (fun s => (splitComma s).toFinset))

/-- The included-field set as amended claim C5 words it: as
`claimedFieldSet`, but a parameter counts as supplied only when present
and non-empty (Python truthiness). -/
def amendedFieldSet (infos : List (String × ApiInfo)) (defaults : Finset String)
    (args : List (String × String)) : Finset String :=
  if truthyO (argsGet args "only") then
    ((splitComma ((argsGet args "only").getD "")).filter (knownField infos)).toFinset
  else
    (defaults ∪
        (if truthyO (argsGet args "include") then
          ((splitComma ((argsGet args "include").getD "")).filter (knownField infos)).toFinset
        else ∅)) \
      (if truthyO (argsGet args "defer") then
        (splitComma ((argsGet args "defer").getD "")).toFinset
      else ∅)

/-! ## Serialization (`APIMixin.as_dict`, `_get_field_value`, `_auto_get`)

Attribute values here are scalars; the recursive serialization of related
model instances (`InstrumentedList` / nested `as_dict`) is outside the
claims and is not embedded.  Getter methods are resolved through a total
method table `gm` from method name to function (a getter method looked up
by `getattr` is assumed to exist, as in the source, where a missing
method would raise). -/

/-- `APIMixin._auto_get` on scalar attributes: the raw attribute value.
A missing attribute (which would raise AttributeError in Python) reads as
`none`. -/
def auto_get (obj : PyObj) (name : String) : PyVal :=
  (List.lookup name obj).getD none

/-- `APIMixin._get_field_value`: use the registered getter method if one
exists, else the raw attribute value. -/
def get_field_value (getters : List (String × String))
    (gm : String → PyObj → String → PyVal) (obj : PyObj) (name : String) : PyVal :=
  match List.lookup name getters with
  | some funcName => gm funcName obj name
  | none => auto_get obj name

/-- `APIMixin.as_dict`: serialize the fields of `fields` (the default set
in defaults mode, the request-resolved set otherwise), then merge in the
`more_json()` dict, its keys winning. -/
def as_dict (defaults : Finset String) (resolved : Finset String) (use_defaults : Bool)
    (getters : List (String × String)) (gm : String → PyObj → String → PyVal)
    (obj : PyObj) (moreJson : List (String × PyVal)) : List (String × PyVal) :=
  let fields := if use_defaults then defaults else resolved
  -- Python iterates the set in unspecified order; the dict built from it is
  -- order-independent as a key-value map, so a canonical (sorted) order is used.
  let result := (fields.sort (· ≤ ·)).map (fun f => (f, get_field_value getters gm obj f))
  moreJson.foldl (fun d kv => dictSet d kv.1 kv.2) result

/-! ## Mutation (`APIMixin._auto_update`, `_set_field_value`, `_auto_set`)

The request-scoped flags on `g` are a `GState`; a custom setter method is
a function from the object and its explicit `(name, value)` arguments to
an effect: the updated object, a validation-failure signal (a raised
`ValueError`/`AssertionError`, caught by `_set_field_value`, or a direct
`g.failed_validation = True`) and any flashed messages.  The framework
only ever or-s the request flag with these signals; nothing clears it
after `set_g`. -/

/-- The request-scoped validation state on `g`: `g.failed_validation` plus
the flashed messages that `api_messages()` collects. -/
structure GState where
  failed_validation : Bool
  messages : List String
deriving Repr, DecidableEq

/-- The `g` state right after `cls.set_g()`. -/
def g0 : GState :=
  ⟨false, []⟩

/-- The observable effect of one custom setter invocation. -/
structure SetterEffect where
  obj : PyObj
  failed : Bool
  msgs : List String

/-- A custom setter method: object, field name, explicit value argument. -/
abbrev SetterFn := PyObj → String → PyVal → SetterEffect

/-- One column of `class_mapper(cls).columns` as `_auto_update` consumes
it: its name and its api-info `set_by`. -/
structure Col where
  name : String
  set_by : Option String
deriving Repr, DecidableEq

/-- What `_auto_update` and `_set_field_value` need of the model:
`mapper.columns`, the `__setters__` dict from field name to method name,
and the method table resolving method names (`getattr(self, func_name)`). -/
structure ModelEnv where
  cols : List Col
  setters : List (String × String)
  methods : List (String × SetterFn)

/-- `self.__setters__[name]` followed by `getattr(self, func_name)`:
either step failing (KeyError / AttributeError) yields `none`. -/
def resolveSetter (env : ModelEnv) (name : String) : Option SetterFn :=
  (List.lookup name env.setters).bind (fun fn => List.lookup fn env.methods)

/-- `APIMixin._set_field_value`: run the custom setter if resolvable,
catching its failure signal into `g.failed_validation`; else fall back to
the direct assignment `_auto_set` when `try_auto`, and do nothing at all
otherwise. -/
def set_field_value (env : ModelEnv) (obj : PyObj) (st : GState)
    (name : String) (value : PyVal) (try_auto : Bool) : PyObj × GState :=
  match resolveSetter env name with
  | some f =>
    let e := f obj name value
    (e.obj, ⟨st.failed_validation || e.failed, st.messages ++ e.msgs⟩)
  | none =>
    if try_auto then (dictSet obj name value, st) else (obj, st)

/-- A record of one `_set_field_value` call made by `_auto_update`: the
field, the explicit value passed, and whether direct assignment was
allowed (`try_auto`; `False` exactly for server-set fields). -/
structure Invocation where
  field : String
  value : PyVal
  try_auto : Bool
deriving Repr, DecidableEq

/-- One iteration of the `for col in mapper.columns` loop of
`APIMixin._auto_update`: a json-set column is set from the payload when
its key is present, a url-set column from `request.view_args`, a
server-set column always, with no client value and `try_auto=False`; any
other `set_by` (including `None`) is untouched.  The third component
records the `_set_field_value` call made, if any. -/
def auto_step (env : ModelEnv) (payload view_args : List (String × PyVal)) (col : Col)
    (obj : PyObj) (st : GState) : PyObj × GState × Option Invocation :=
  match col.set_by with
  | some sb =>
    if sb = "json" then
      match List.lookup col.name payload with
      | some v =>
        let p := set_field_value env obj st col.name v true
        (p.1, p.2, some ⟨col.name, v, true⟩)
      | none => (obj, st, none)
    else if sb = "url" then
      match List.lookup col.name view_args with
      | some v =>
        let p := set_field_value env obj st col.name v true
        (p.1, p.2, some ⟨col.name, v, true⟩)
      | none => (obj, st, none)
    else if sb = "server" then
      let p := set_field_value env obj st col.name none false
      (p.1, p.2, some ⟨col.name, none, false⟩)
    else (obj, st, none)
  | none => (obj, st, none)

/-- The column loop itself, threading the object and `g` state through
`auto_step` and collecting the invocation records in order. -/
def auto_update_go (env : ModelEnv) (payload view_args : List (String × PyVal)) :
    List Col → PyObj → GState → PyObj × GState × List Invocation
  | [], obj, st => (obj, st, [])
  | col :: rest, obj, st =>
    let s := auto_step env payload view_args col obj st
    let r := auto_update_go env payload view_args rest s.1 s.2.1
    (r.1, r.2.1, s.2.2.elim r.2.2 (· :: r.2.2))

/-- `APIMixin._auto_update` over the model's columns. -/
def auto_update (env : ModelEnv) (payload view_args : List (String × PyVal))
    (obj : PyObj) (st : GState) : PyObj × GState × List Invocation :=
  auto_update_go env payload view_args env.cols obj st

/-! ## The generated CRUD handlers (`get`, `post`, `put`, `delete`)

Each handler is embedded as a function from its collaborator results (the
`_get_obj_by_id` outcome, the bound authorization checks, the bound
`before_return` hooks) to an outcome carrying the HTTP status, the error
messages, the session effects, and an event log recording which pipeline
stages ran, in order. -/

/-- Pipeline events, in the order the handler performs them. -/
inductive Ev where
  | authorize
  | mutate
  | hook (i : Nat)
  | validate
  | sAdd
  | sCommit
  | sDelete
deriving Repr, DecidableEq

/-- A bound authorization check (`@authorizes`): takes the resolved
resource, or `none` for collection-level routes. -/
abbrev CheckFn := Option PyObj → Bool

/-- The observable effect of one `before_return` hook on the resource. -/
structure HookEffect where
  obj : PyObj
  failed : Bool
  msgs : List String

/-- A bound `before_return` hook. -/
abbrev HookFn := PyObj → HookEffect

/-- `APIMixin._authorize`: every bound check must pass. -/
def authorize_all (checks : List CheckFn) (resource : Option PyObj) : Bool :=
  checks.all (fun c => c resource)

/-- `APIMixin._before_return`: run the bound hooks in order, or-ing their
failure signals into `g.failed_validation`, and log one event each. -/
def run_hooks_go (i : Nat) : List HookFn → PyObj → GState → PyObj × GState × List Ev
  | [], obj, st => (obj, st, [])
  | h :: rest, obj, st =>
    let e := h obj
    let r := run_hooks_go (i + 1) rest e.obj ⟨st.failed_validation || e.failed, st.messages ++ e.msgs⟩
    (r.1, r.2.1, Ev.hook i :: r.2.2)

/-- `api_messages()`: the flashed messages plus the configured
`API_ERROR_MESSAGE`, when set. -/
def api_messages (default_msg : Option String) (st : GState) : List String :=
  st.messages ++ default_msg.toList

/-- The outcome of one generated write/read handler: status code, the
messages of an error body, the serialized object (when one is returned),
the session calls made, and the stage event log. -/
structure Outcome where
  status : Nat
  body_messages : List String
  final_obj : Option PyObj
  session_added : Bool
  session_committed : Bool
  session_deleted : Bool
  events : List Ev

/-- `APIMixin.get`: resolve, 404 on a miss, then authorize, then hooks,
then the validation check. -/
def get_handler (checks : List CheckFn) (hooks : List HookFn) (dm : Option String)
    (lookup_result : Option PyObj) : Outcome :=
  match lookup_result with
  | none => ⟨404, api_messages dm g0, none, false, false, false, []⟩
  | some obj =>
    if !authorize_all checks (some obj) then
      ⟨403, api_messages dm g0, none, false, false, false, [Ev.authorize]⟩
    else
      let r := run_hooks_go 0 hooks obj g0
      let evs := Ev.authorize :: r.2.2 ++ [Ev.validate]
      if r.2.1.failed_validation then ⟨400, api_messages dm r.2.1, none, false, false, false, evs⟩
      else ⟨200, [], some r.1, false, false, false, evs⟩

/-- `APIMixin.post`: authorize, build a fresh object, mutate, hooks,
validation check; only then `session.add` and `session.commit`. -/
def post_handler (env : ModelEnv) (checks : List CheckFn) (hooks : List HookFn)
    (dm : Option String) (payload view_args : List (String × PyVal))
    (new_obj : PyObj) : Outcome :=
  if !authorize_all checks none then
    ⟨403, api_messages dm g0, none, false, false, false, [Ev.authorize]⟩
  else
    let u := auto_update env payload view_args new_obj g0
    let r := run_hooks_go 0 hooks u.1 u.2.1
    let evs := Ev.authorize :: Ev.mutate :: r.2.2 ++ [Ev.validate]
    if r.2.1.failed_validation then ⟨400, api_messages dm r.2.1, none, false, false, false, evs⟩
    else ⟨201, [], some r.1, true, true, false, evs ++ [Ev.sAdd, Ev.sCommit]⟩

/-- `APIMixin.put`: resolve, 404 on a miss, authorize, mutate, hooks,
validation check; only then `session.commit`. -/
def put_handler (env : ModelEnv) (checks : List CheckFn) (hooks : List HookFn)
    (dm : Option String) (lookup_result : Option PyObj)
    (payload view_args : List (String × PyVal)) : Outcome :=
  match lookup_result with
  | none => ⟨404, api_messages dm g0, none, false, false, false, []⟩
  | some obj =>
    if !authorize_all checks (some obj) then
      ⟨403, api_messages dm g0, none, false, false, false, [Ev.authorize]⟩
    else
      let u := auto_update env payload view_args obj g0
      let r := run_hooks_go 0 hooks u.1 u.2.1
      let evs := Ev.authorize :: Ev.mutate :: r.2.2 ++ [Ev.validate]
      if r.2.1.failed_validation then ⟨400, api_messages dm r.2.1, none, false, false, false, evs⟩
      else ⟨200, [], some r.1, false, true, false, evs ++ [Ev.sCommit]⟩

/-- `APIMixin.delete`: resolve, 404 on a miss, authorize, hooks,
validation check; only then `session.delete` and `session.commit`. -/
def delete_handler (checks : List CheckFn) (hooks : List HookFn) (dm : Option String)
    (lookup_result : Option PyObj) : Outcome :=
  match lookup_result with
  | none => ⟨404, api_messages dm g0, none, false, false, false, []⟩
  | some obj =>
    if !authorize_all checks (some obj) then
      ⟨403, api_messages dm g0, none, false, false, false, [Ev.authorize]⟩
    else
      let r := run_hooks_go 0 hooks obj g0
      let evs := Ev.authorize :: r.2.2 ++ [Ev.validate]
      if r.2.1.failed_validation then ⟨400, api_messages dm r.2.1, none, false, false, false, evs⟩
      else ⟨204, [], none, false, true, true, evs ++ [Ev.sDelete, Ev.sCommit]⟩

/-! ## Index query construction (`APIMixin._get_results`, `index`)

The storage collaborator is embedded over an explicit row list: equality
and membership filters follow SQL semantics on NULL (`col == None` is an
IS NULL test and matches a NULL cell; `col.in_(...)` never matches a NULL
cell), ordering is a lexicographic stable sort over the collected keys,
and `paginate(page, per_page)` takes the page's slice with
`has_next = page * per_page < total`.  `int(...)` on a non-numeric string
and `rule[0]` on an empty string raise, embedded as `PyErr` results;
Flask-SQLAlchemy's `error_out` aborts for out-of-range pages are outside
the claims and not embedded. -/

/-- A Python exception escaping the handler (an HTTP 500, not a
framework-built response). -/
inductive PyErr where
  | indexError
  | valueError
deriving Repr, DecidableEq

/-- What `_get_results` returns: either the `(jsonify(...), 400)` pair
(`bad`) or the `(objects, total, has_next)` triple. -/
inductive GRes where
  | bad
  | res (objects : List PyObj) (total : Nat) (has_next : Bool)
deriving Repr, DecidableEq

/-- What `index` needs of the model class: its column attributes (for
`getattr(cls, col_name)` in the sort loop, with their `primary_key` and
`index` flags), `__indexedfields__` in iteration order, `__sort__` and
`__maxresults__`. -/
structure ColAttr where
  primary_key : Bool
  index : Bool
deriving Repr, DecidableEq

structure IndexModel where
  attrs : List (String × ColAttr)
  indexedfields : List String
  sort_default : Option String
  max_results : Option Nat
deriving Repr, DecidableEq

/-- `[x if x != 'null' else None for x in filter_string.split(',')]`. -/
def filter_values (s : String) : List PyVal :=
  (splitComma s).map (fun x => if x = "null" then none else some x)

/-- One row against one filter: a single value is `column == value`
(`IS NULL` for the null token), several are `column.in_(values)`, which
never matches a NULL cell. -/
def row_matches (row : PyObj) (field : String) (vals : List PyVal) : Bool :=
  match vals with
  | [v] => (List.lookup field row).getD none = v
  | _ =>
    match (List.lookup field row).getD none with
    | none => false
    | some x => vals.contains (some x)

/-- The `for field in cls.__indexedfields__` filter loop of
`_get_results`. -/
def apply_filters (m : IndexModel) (args : List (String × String))
    (rows : List PyObj) : List PyObj :=
  m.indexedfields.foldl
    (fun rs f =>
      match argsGet args f with
      | some s => if strEmpty s then rs else rs.filter (fun r => row_matches r f (filter_values s))
      | none => rs)
    rows

/-- The outcome of the sort-rule loop: a raised IndexError (empty rule),
the BAD-REQUEST return (unknown or non-indexed sort key), or the parsed
`(column, descending)` keys. -/
inductive SortOut where
  | err (e : PyErr)
  | bad
  | keys (ks : List (String × Bool))
deriving Repr, DecidableEq

/-- The `for rule in rules` sort loop: `rule[0] == '-'` selects descending
(IndexError on an empty rule), then the key must name a class attribute
whose comparator is a primary key or indexed column, else the 400 return.
(A sort key naming a non-column class attribute would raise
AttributeError in Python; the embedded attribute namespace holds the
column attributes, so such keys take the `None`/400 branch here.) -/
def parse_sort (attrs : List (String × ColAttr)) : List String → SortOut
  | [] => .keys []
  | r :: rest =>
    match r.data with
    | [] => .err .indexError
    | c0 :: ctail =>
      let cname := if c0 = '-' then (⟨ctail⟩ : String) else r
      let desc := c0 = '-'
      match List.lookup cname attrs with
      | some a =>
        if a.primary_key || a.index then
          match parse_sort attrs rest with
          | .keys ks => .keys ((cname, desc) :: ks)
          | o => o
        else .bad
      | none => .bad

/-- String comparison of two cell values, NULLs first. -/
def cell_le (a b : PyVal) : Bool :=
  match a, b with
  | none, _ => true
  | some _, none => false
  | some x, some y => x ≤ y

/-- Lexicographic row comparison over the parsed sort keys. -/
def row_le (ks : List (String × Bool)) (a b : PyObj) : Bool :=
  match ks with
  | [] => true
  | (f, desc) :: rest =>
    let x := (List.lookup f a).getD none
    let y := (List.lookup f b).getD none
    if x = y then row_le rest a b
    else if desc then cell_le y x else cell_le x y

/-- Stable insertion into a sorted list. -/
def ins_sorted (le : PyObj → PyObj → Bool) (x : PyObj) : List PyObj → List PyObj
  | [] => [x]
  | y :: ys => if le y x then y :: ins_sorted le x ys else x :: y :: ys

/-- The combined `ORDER BY` of the collected keys (a stable sort). -/
def sort_rows (ks : List (String × Bool)) (rows : List PyObj) : List PyObj :=
  rows.foldr (ins_sorted (row_le ks)) []

/-- `query.paginate(page, per_page)` followed by the `.items`, `.total`,
`.has_next` reads, and the no-page-size `query.all()` branch. -/
def paginate_stage (args : List (String × String)) (rows : List PyObj) :
    Option Nat → Except PyErr GRes
  | none => .ok (.res rows rows.length false)
  | some pp =>
    let pageE : Except PyErr Nat :=
      match argsGet args "page" with
      | none => .ok 1
      | some s =>
        if strEmpty s then .ok 1
        else match pyInt s with
          | some p => .ok p
          | none => .error .valueError
    match pageE with
    | .error e => .error e
    | .ok page =>
      .ok (.res ((rows.drop ((page - 1) * pp)).take pp) rows.length
        (decide (page * pp < rows.length)))

/-- `APIMixin._get_results`: filters, then the sort rules (request `sort`
argument or `__sort__` default, comma-separated), then the `per_page` cap
check against `__maxresults__`, then pagination.  The `.bad` result is
the code's `return jsonify(messages=api_messages()), 400`. -/
def get_results (m : IndexModel) (args : List (String × String))
    (rows : List PyObj) : Except PyErr GRes :=
  let rows1 := apply_filters m args rows
  let sort_rules := pyOrStr (argsGet args "sort") m.sort_default
  let sortedE : Except PyErr (Option (List PyObj)) :=
    if truthyO sort_rules then
      match parse_sort m.attrs (splitComma (sort_rules.getD "")) with
      | .err e => .error e
      | .bad => .ok none
      | .keys ks => .ok (some (sort_rows ks rows1))
    else .ok (some rows1)
  match sortedE with
  | .error e => .error e
  | .ok none => .ok .bad
  | .ok (some rows2) =>
    match argsGet args "per_page" with
    | none => paginate_stage args rows2 m.max_results
    | some s =>
      match pyInt s with
      | none => .error .valueError
      | some pp =>
        if (match m.max_results with
            | some mx => decide (0 < mx) && decide (mx < pp)
            | none => false) then
          .ok .bad
        else paginate_stage args rows2 (some pp)

/-- `APIMixin.index`: authorize, then
`objects, total, has_next = cls._get_results()`.  When `_get_results`
returns its `(jsonify(...), 400)` pair, that two-element tuple cannot be
unpacked into three names, so the assignment raises ValueError and the
intended 400 never reaches the client.  Hooks for `index` receive the
object list; the outcome is the status with the error-body messages. -/
def index_handler (m : IndexModel) (checks : List CheckFn)
    (hooks : List (List PyObj → Bool × List String)) (dm : Option String)
    (args : List (String × String)) (rows : List PyObj) :
    Except PyErr (Nat × List String) :=
  if !authorize_all checks none then .ok (403, api_messages dm g0)
  else
    match get_results m args rows with
    | .error e => .error e
    | .ok .bad => .error .valueError
    | .ok (.res objs _ _) =>
      let st1 := hooks.foldl
        (fun s h => ⟨s.failed_validation || (h objs).1, s.messages ++ (h objs).2⟩)
        g0
      if st1.failed_validation then .ok (400, api_messages dm st1) else .ok (200, [])

/-! ## Route building (`Router.build_rule`, `Router.get_route_base`)

Strings are manipulated through their character lists; `collapseS` is the
`re.sub(r'(/)\1+', r'\1', result)` collapse of slash runs and
`rstripSlash` is `.rstrip('/')`. -/

/-- Character-level collapse of runs of `/`: `prev` is the last kept
character. -/
def collapseGo (prev : Char) : List Char → List Char
  | [] => []
  | c :: rest =>
    if prev = '/' ∧ c = '/' then collapseGo c rest
    else c :: collapseGo c rest

/-- Collapse every run of adjacent slashes to a single slash. -/
def collapseL : List Char → List Char
  | [] => []
  | c :: rest => c :: collapseGo c rest

/-- String version of the slash collapse. -/
def collapseS (s : String) : String :=
  ⟨collapseL s.toList⟩

/-- Python `s.rstrip('/')`. -/
def rstripSlash (s : String) : String :=
  ⟨(s.toList.reverse.dropWhile (· = '/')).reverse⟩

/-- Python `s.strip('/')`. -/
def stripSlash (s : String) : String :=
  ⟨((s.toList.dropWhile (· = '/')).reverse.dropWhile (· = '/')).reverse⟩

/-- Python `'/'.join(parts)`. -/
def pyJoin : List String → String
  | [] => ""
  | p :: rest => rest.foldl (fun acc s => acc ++ "/" ++ s) p

/-- `Router.get_route_base`: the explicit `__routebase__` override when
not None, else the `__tablename__` when present and not None, else the
lower-cased class name; stripped of surrounding slashes. -/
def get_route_base (route_base_attr : Option String) (tablename : Option String)
    (clsName : String) : String :=
  let route_base :=
    match route_base_attr with
    | some b => b
    | none =>
      match tablename with
      | some t => t
      | none => clsName.toLower
  stripSlash route_base

/-- `Router.build_rule`: assemble the truthy parts (class-level or
configured route prefix, route base, the route's own rule), join them
with slashes behind a leading slash, collapse slash runs, strip trailing
slashes. -/
def build_rule (route_pfx_cls cfg_pfx : Option String)
    (route_base_attr tablename : Option String) (clsName : String)
    (rule : String) : String :=
  let route_pfx := pyOrStr route_pfx_cls cfg_pfx
  let parts : List String :=
    (match route_pfx with
     | some p => if strEmpty p then [] else [p]
     | none => []) ++
    (let rb := get_route_base route_base_attr tablename clsName
     if strEmpty rb then [] else [rb]) ++
    [rule]
  rstripSlash (collapseS ("/" ++ pyJoin parts))

/-- Decidable equality of handler results (used to evaluate concrete
inputs in the theorems below). -/
instance exceptDecEq {ε α : Type} [DecidableEq ε] [DecidableEq α] :
    DecidableEq (Except ε α) := fun a b =>
  match a, b with
  | .error e, .error f =>
    if h : e = f then .isTrue (congrArg Except.error h)
    else .isFalse (fun hh => h (by cases hh; rfl))
  | .ok x, .ok y =>
    if h : x = y then .isTrue (congrArg Except.ok h)
    else .isFalse (fun hh => h (by cases hh; rfl))
  | .error _, .ok _ => .isFalse (fun hh => Except.noConfusion hh)
  | .ok _, .error _ => .isFalse (fun hh => Except.noConfusion hh)

/-! ## Example models and requests used by the witnesses and counterexamples -/

/-- The model and rows of the C3 evidence: `title` is a stored column that
is neither a primary key nor indexed. -/
def exM3 : IndexModel :=
  ⟨[("id", ⟨true, false⟩), ("title", ⟨false, false⟩)], ["id"], none, none⟩

def exRows3 : List PyObj :=
  [[("id", some "1"), ("title", some "x")]]

/-- The model and rows of the C4 counterexample: `__maxresults__ = 1` and
two stored rows. -/
def exM4 : IndexModel :=
  ⟨[("id", ⟨true, false⟩)], [], none, some 1⟩

def exRow41 : PyObj := [("id", some "1")]

def exRow42 : PyObj := [("id", some "2")]

/-- The inputs of the C5 counterexample: known fields `a` and `b`,
default set `a`, and a request supplying an empty `only` together with
`include=b`. -/
def exInfos5 : List (String × ApiInfo) := [("a", columndefaults), ("b", columndefaults)]

def exArgs5 : List (String × String) := [("only", ""), ("include", "b")]

/-- The C7 counterexample model: a single column `images` declared with
`set_by='server'` and no `@setter`-decorated method anywhere. -/
def exMembers7 : List Member :=
  [Member.column "images" false false false ⟨none, none, some (some "server"), none, none, none⟩]

/-- The mutation environment of the registered C7 model (no setter
methods exist). -/
def exEnv7 : ModelEnv :=
  ⟨[⟨"images", some "server"⟩], (register exMembers7).setters, []⟩

/-- A model whose only column has a custom setter that always flags
validation failure (as the repo's slug-uniqueness setters do on a
collision). -/
def exEnvC2 : ModelEnv :=
  ⟨[⟨"slug", some "json"⟩], [("slug", "set_slug")],
   [("set_slug", fun o _ _ => ⟨o, true, ["This slug is not unique"]⟩)]⟩

/-- A model with one column of each `set_by` kind and no custom setters. -/
def exEnv9 : ModelEnv :=
  ⟨[⟨"title", some "json"⟩, ⟨"slug", some "url"⟩, ⟨"images", some "server"⟩], [], []⟩

def exMembers6 : List Member :=
  [Member.column "id" true false false noOverride,
   Member.column "pw_hash" false false false ⟨some false, none, none, none, none, none⟩,
   Member.relationship "posts" true ⟨some true, none, none, none, none, none⟩]

/-- The condition under which `_auto_update` records an invocation for a
column: json-set columns with their key present in the payload get the
payload value with `try_auto`, url-set columns the path value with
`try_auto`, server-set columns no value and no `try_auto`. -/
def invSpec (payload view_args : List (String × PyVal)) (c : Col) (inv : Invocation) : Prop :=
  inv.field = c.name ∧
    ((c.set_by = some "json" ∧ List.lookup c.name payload = some inv.value ∧ inv.try_auto = true)
     ∨ (c.set_by = some "url" ∧ List.lookup c.name view_args = some inv.value ∧ inv.try_auto = true)
     ∨ (c.set_by = some "server" ∧ inv.value = none ∧ inv.try_auto = false))

/-- The C4 witness model with no configured maximum page size. -/
def exM4N : IndexModel :=
  ⟨[("id", ⟨true, false⟩)], [], none, none⟩

/-- The C10 witness model: an indexed id plus a private column `secret`. -/
def exMembers10 : List Member :=
  [Member.column "id" true false false noOverride,
   Member.column "secret" false false false ⟨some false, none, none, none, none, none⟩]

/-! ## Lemmas about the embedded primitives -/

theorem lookup_cons_self {α : Type} (k : String) (v : α) (l : List (String × α)) :
    List.lookup k ((k, v) :: l) = some v := by
  simp [List.lookup]

theorem lookup_cons_ne {α : Type} (k k' : String) (v : α) (l : List (String × α))
    (h : ¬ k' = k) :
    List.lookup k' ((k, v) :: l) = List.lookup k' l := by
  simp [List.lookup, beq_eq_false_iff_ne.mpr h]

theorem dictSet_cons_eq {α : Type} (k : String) (v0 v : α) (rest : List (String × α)) :
    dictSet ((k, v0) :: rest) k v = (k, v) :: rest := by
  simp [dictSet]

theorem dictSet_cons_ne {α : Type} (k0 k : String) (v0 v : α) (rest : List (String × α))
    (h : ¬ k0 = k) :
    dictSet ((k0, v0) :: rest) k v = (k0, v0) :: dictSet rest k v := by
  simp [dictSet, h]

theorem lookup_dictSet_self {α : Type} (d : List (String × α)) (k : String) (v : α) :
    List.lookup k (dictSet d k v) = some v := by
  induction d with
  | nil => simp [dictSet, lookup_cons_self]
  | cons kv rest ih =>
    rcases kv with ⟨k0, v0⟩
    by_cases h : k0 = k
    · subst h
      rw [dictSet_cons_eq, lookup_cons_self]
    · rw [dictSet_cons_ne _ _ _ _ _ h, lookup_cons_ne _ _ _ _ (fun hh => h hh.symm)]
      exact ih

theorem lookup_dictSet_ne {α : Type} (d : List (String × α)) (k k' : String) (v : α)
    (h : ¬ k' = k) :
    List.lookup k' (dictSet d k v) = List.lookup k' d := by
  induction d with
  | nil =>
    simp only [dictSet]
    rw [lookup_cons_ne _ _ _ _ h]
  | cons kv rest ih =>
    rcases kv with ⟨k0, v0⟩
    by_cases h0 : k0 = k
    · subst h0
      rw [dictSet_cons_eq]
      rw [lookup_cons_ne _ _ _ _ h, lookup_cons_ne _ _ _ _ h]
    · rw [dictSet_cons_ne _ _ _ _ _ h0]
      by_cases h1 : k' = k0
      · subst h1
        rw [lookup_cons_self, lookup_cons_self]
      · rw [lookup_cons_ne _ _ _ _ h1, lookup_cons_ne _ _ _ _ h1]
        exact ih

theorem lookup_pair_map (l : List String) (f : String → PyVal) (n : String)
    (hn : n ∈ l) :
    List.lookup n (l.map (fun x => (x, f x))) = some (f n) := by
  induction l with
  | nil => cases hn
  | cons a rest ih =>
    by_cases h : n = a
    · subst h
      simp only [List.map_cons]
      exact lookup_cons_self _ _ _
    · rcases List.mem_cons.mp hn with rfl | hmem
      · exact absurd rfl h
      · simp only [List.map_cons]
        rw [lookup_cons_ne _ _ _ _ h]
        exact ih hmem

theorem lookup_foldl_dictSet (md : List (String × PyVal)) :
    ∀ (d : List (String × PyVal)) (n : String), List.lookup n md = none →
      List.lookup n (md.foldl (fun acc kv => dictSet acc kv.1 kv.2) d)
        = List.lookup n d := by
  induction md with
  | nil => intro d n _; rfl
  | cons kv rest ih =>
    rcases kv with ⟨k, v⟩
    intro d n hn
    have hk : ¬ n = k := by
      intro h
      subst h
      rw [lookup_cons_self] at hn
      exact Option.noConfusion hn
    have hrest : List.lookup n rest = none := by
      rw [lookup_cons_ne _ _ _ _ hk] at hn
      exact hn
    simp only [List.foldl_cons]
    rw [ih _ n hrest, lookup_dictSet_ne _ _ _ _ hk]

theorem strEmpty_iff (s : String) : strEmpty s = true ↔ s.data = [] := by
  cases s with
  | mk l =>
    cases l <;> simp [strEmpty]

theorem str_data_append (a b : String) : (a ++ b).data = a.data ++ b.data := rfl

theorem collapseGo_double (t : List Char) :
    ∀ (l : List Char) (prev : Char),
      collapseGo prev (l ++ '/' :: '/' :: t) = collapseGo prev (l ++ '/' :: t) := by
  intro l
  induction l with
  | nil =>
    intro prev
    by_cases h : prev = '/'
    · subst h
      simp [collapseGo]
    · simp [collapseGo, h]
  | cons c rest ih =>
    intro prev
    simp only [List.cons_append, collapseGo]
    by_cases h : prev = '/' ∧ c = '/'
    · simp [h, ih]
    · simp [h, ih]

theorem collapseL_double (l t : List Char) :
    collapseL (l ++ '/' :: '/' :: t) = collapseL (l ++ '/' :: t) := by
  cases l with
  | nil => simp [collapseL, collapseGo]
  | cons c rest =>
    simp only [List.cons_append, collapseL]
    rw [collapseGo_double]

theorem collapse_congr (x y : String) (h : collapseL x.data = collapseL y.data) :
    rstripSlash (collapseS x) = rstripSlash (collapseS y) := by
  unfold collapseS
  rw [show x.toList = x.data from rfl, show y.toList = y.data from rfl, h]

/-- Hooks only or failure signals into the request flag, so a flag set
during mutation is still set after every hook has run. -/
theorem run_hooks_flag_mono (hooks : List HookFn) :
    ∀ (i : Nat) (obj : PyObj) (st : GState), st.failed_validation = true →
      ((run_hooks_go i hooks obj st).2.1).failed_validation = true := by
  induction hooks with
  | nil => intro i obj st h; exact h
  | cons hd tl ih =>
    intro i obj st h
    simp only [run_hooks_go]
    exact ih (i + 1) _ _ (by simp [h])

/-- The hook runner logs hook events only. -/
theorem run_hooks_events_hook (hooks : List HookFn) :
    ∀ (i : Nat) (obj : PyObj) (st : GState) (e : Ev),
      e ∈ (run_hooks_go i hooks obj st).2.2 → ∃ j, e = Ev.hook j := by
  induction hooks with
  | nil => intro i obj st e h; simp [run_hooks_go] at h
  | cons hd tl ih =>
    intro i obj st e h
    simp only [run_hooks_go, List.mem_cons] at h
    rcases h with h | h
    · exact ⟨i, h⟩
    · exact ih (i + 1) _ _ e h

/-- One column step of `_auto_update` is unchanged under any payload
replacement that agrees on the column's key when it is json-set. -/
theorem auto_step_agree (env : ModelEnv) (p1 p2 view_args : List (String × PyVal)) (col : Col)
    (obj : PyObj) (st : GState)
    (h : col.set_by = some "json" → List.lookup col.name p1 = List.lookup col.name p2) :
    auto_step env p1 view_args col obj st = auto_step env p2 view_args col obj st := by
  rcases col with ⟨cname, sb⟩
  rcases sb with _ | sb
  · rfl
  · by_cases h1 : sb = "json"
    · subst h1
      have hl := h rfl
      simp only [auto_step] at *
      rw [hl]
    · simp only [auto_step]
      rw [if_neg h1, if_neg h1]

/-- The `_auto_update` loop is unchanged under any payload replacement
that agrees on the json-set columns' keys. -/
theorem auto_update_go_agree (env : ModelEnv) (p1 p2 view_args : List (String × PyVal)) :
    ∀ (cols : List Col) (obj : PyObj) (st : GState),
      (∀ c ∈ cols, c.set_by = some "json" →
        List.lookup c.name p1 = List.lookup c.name p2) →
      auto_update_go env p1 view_args cols obj st
        = auto_update_go env p2 view_args cols obj st := by
  intro cols
  induction cols with
  | nil => intro obj st _; rfl
  | cons col rest ih =>
    intro obj st h
    simp only [auto_update_go]
    rw [auto_step_agree env p1 p2 view_args col obj st (h col (List.mem_cons_self col rest))]
    rw [ih _ _ (fun c hc hj => h c (List.mem_cons_of_mem col hc) hj)]

/-- One column step records an invocation exactly under `invSpec`. -/
theorem auto_step_trace (env : ModelEnv) (payload view_args : List (String × PyVal))
    (col : Col) (obj : PyObj) (st : GState) (inv : Invocation) :
    (auto_step env payload view_args col obj st).2.2 = some inv ↔
      invSpec payload view_args col inv := by
  rcases col with ⟨cname, sb⟩
  rcases inv with ⟨f, v, ta⟩
  rcases sb with _ | sb
  · simp [auto_step, invSpec]
  · by_cases h1 : sb = "json"
    · subst h1
      rcases hl : List.lookup cname payload with _ | w <;>
        simp [auto_step, invSpec, hl] <;> aesop
    · by_cases h2 : sb = "url"
      · subst h2
        rcases hl : List.lookup cname view_args with _ | w <;>
          simp [auto_step, invSpec, hl, h1] <;> aesop
      · by_cases h3 : sb = "server"
        · subst h3
          simp [auto_step, invSpec, h1, h2]
          aesop
        · simp [auto_step, invSpec, h1, h2, h3]

/-- The invocation records of the `_auto_update` loop are characterized by
`invSpec` over the column list. -/
theorem auto_update_go_trace (env : ModelEnv) (payload view_args : List (String × PyVal)) :
    ∀ (cols : List Col) (obj : PyObj) (st : GState) (inv : Invocation),
      inv ∈ (auto_update_go env payload view_args cols obj st).2.2 ↔
        ∃ c ∈ cols, invSpec payload view_args c inv := by
  intro cols
  induction cols with
  | nil => intro obj st inv; simp [auto_update_go]
  | cons col rest ih =>
    intro obj st inv
    simp only [auto_update_go]
    rcases hs : (auto_step env payload view_args col obj st).2.2 with _ | inv0
    · simp only [Option.elim]
      rw [ih]
      constructor
      · rintro ⟨c, hc, hspec⟩
        exact ⟨c, List.mem_cons_of_mem col hc, hspec⟩
      · rintro ⟨c, hc, hspec⟩
        rcases List.mem_cons.mp hc with rfl | hc2
        · have := (auto_step_trace env payload view_args c obj st inv).mpr hspec
          rw [hs] at this
          exact Option.noConfusion this
        · exact ⟨c, hc2, hspec⟩
    · simp only [Option.elim, List.mem_cons]
      rw [ih]
      constructor
      · rintro (rfl | ⟨c, hc, hspec⟩)
        · exact ⟨col, Or.inl rfl,
            (auto_step_trace env payload view_args col obj st inv).mp hs⟩
        · exact ⟨c, Or.inr hc, hspec⟩
      · rintro ⟨c, rfl | hc2, hspec⟩
        · left
          have := (auto_step_trace env payload view_args c obj st inv).mpr hspec
          rw [hs] at this
          exact (Option.some.inj this).symm
        · right
          exact ⟨c, hc2, hspec⟩

theorem registerStep_keep (r : Registry) (m : Member) (n : String) (h : ¬ m.name = n) :
    List.lookup n (registerStep r m).infos = List.lookup n r.infos
    ∧ (n ∈ (registerStep r m).defaultfields ↔ n ∈ r.defaultfields) := by
  have hn : ¬ n = m.name := fun hh => h hh.symm
  rcases m with ⟨name, pk, idx, nb, info⟩ | ⟨name, lz, info⟩ | ⟨name, info⟩ | ⟨name, fs⟩
    | ⟨name, fs⟩ | ⟨name, rs⟩ | ⟨name, rs⟩ | ⟨name, rs⟩ <;>
      simp only [Member.name] at hn
  · by_cases hu : startsUnderscore name = true
    · simp [registerStep, hu]
    · simp only [registerStep, hu, Bool.false_eq_true, if_false]
      refine ⟨lookup_dictSet_ne _ _ _ _ hn, ?_⟩
      split <;> simp [Finset.mem_insert, hn]
  · by_cases hu : startsUnderscore name = true
    · simp [registerStep, hu]
    · simp only [registerStep, hu, Bool.false_eq_true, if_false]
      refine ⟨lookup_dictSet_ne _ _ _ _ hn, ?_⟩
      split <;> simp [Finset.mem_insert, hn]
  · simp only [registerStep]
    split
    · refine ⟨lookup_dictSet_ne _ _ _ _ hn, ?_⟩
      split <;> simp [Finset.mem_insert, hn]
    · exact ⟨rfl, Iff.rfl⟩
  · exact ⟨rfl, Iff.rfl⟩
  · exact ⟨rfl, Iff.rfl⟩
  · exact ⟨rfl, Iff.rfl⟩
  · exact ⟨rfl, Iff.rfl⟩
  · exact ⟨rfl, Iff.rfl⟩

theorem register_fold_keep (n : String) :
    ∀ (ms : List Member) (r : Registry), (∀ m ∈ ms, ¬ m.name = n) →
      List.lookup n ((ms.foldl registerStep r)).infos = List.lookup n r.infos
      ∧ (n ∈ (ms.foldl registerStep r).defaultfields ↔ n ∈ r.defaultfields) := by
  intro ms
  induction ms with
  | nil => intro r _; exact ⟨rfl, Iff.rfl⟩
  | cons m rest ih =>
    intro r h
    have h1 := registerStep_keep r m n (h m (List.mem_cons_self m rest))
    have h2 := ih (registerStep r m) (fun x hx => h x (List.mem_cons_of_mem m hx))
    simp only [List.foldl_cons]
    exact ⟨h2.1.trans h1.1, h2.2.trans h1.2⟩

theorem register_split (members : List Member) (m : Member)
    (hm : m ∈ members) (hnd : (members.map Member.name).Nodup) :
    ∃ l1 l2, members = l1 ++ m :: l2
      ∧ (∀ x ∈ l1, ¬ x.name = m.name) ∧ (∀ x ∈ l2, ¬ x.name = m.name) := by
  rcases List.append_of_mem hm with ⟨l1, l2, rfl⟩
  refine ⟨l1, l2, rfl, ?_, ?_⟩
  · intro x hx he
    rw [List.map_append, List.map_cons] at hnd
    rcases List.nodup_append.mp hnd with ⟨_, _, hdisj⟩
    exact hdisj (List.mem_map_of_mem Member.name hx) (by simp [he])
  · intro x hx he
    rw [List.map_append, List.map_cons] at hnd
    rcases List.nodup_append.mp hnd with ⟨_, hnd2, _⟩
    rcases List.nodup_cons.mp hnd2 with ⟨hnotmem, _⟩
    exact hnotmem (he ▸ List.mem_map_of_mem Member.name hx)

theorem register_infos_column (members : List Member)
    (hnd : (members.map Member.name).Nodup)
    (n : String) (pk idx nb : Bool) (o : InfoOverride)
    (hm : Member.column n pk idx nb o ∈ members)
    (hu : startsUnderscore n = false) :
    List.lookup n (register members).infos = some (mergeInfo columndefaults o) := by
  obtain ⟨l1, l2, rfl, h1, h2⟩ := register_split members _ hm hnd
  simp only [Member.name] at h1 h2
  unfold register
  rw [List.foldl_append, List.foldl_cons]
  have hkeep := register_fold_keep n l2
    (registerStep (l1.foldl registerStep emptyRegistry) (Member.column n pk idx nb o)) h2
  rw [hkeep.1]
  simp only [registerStep, hu, Bool.false_eq_true, if_false]
  exact lookup_dictSet_self _ _ _

theorem register_infos_relationship (members : List Member)
    (hnd : (members.map Member.name).Nodup)
    (n : String) (lz : Bool) (o : InfoOverride)
    (hm : Member.relationship n lz o ∈ members)
    (hu : startsUnderscore n = false) :
    List.lookup n (register members).infos = some (mergeInfo relationshipdefaults o) := by
  obtain ⟨l1, l2, rfl, h1, h2⟩ := register_split members _ hm hnd
  simp only [Member.name] at h1 h2
  unfold register
  rw [List.foldl_append, List.foldl_cons]
  have hkeep := register_fold_keep n l2
    (registerStep (l1.foldl registerStep emptyRegistry) (Member.relationship n lz o)) h2
  rw [hkeep.1]
  simp only [registerStep, hu, Bool.false_eq_true, if_false]
  exact lookup_dictSet_self _ _ _

theorem register_defaultfields_iff (members : List Member)
    (hnd : (members.map Member.name).Nodup) (n : String) :
    n ∈ (register members).defaultfields ↔
      ∃ i, List.lookup n (register members).infos = some i
        ∧ i.public = true ∧ i.defer = false := by
  by_cases hex : ∃ m ∈ members, m.name = n
  · obtain ⟨m, hm, hname⟩ := hex
    obtain ⟨l1, l2, rfl, h1, h2⟩ := register_split members m hm hnd
    unfold register
    rw [List.foldl_append, List.foldl_cons]
    have hkeep1 := register_fold_keep n l1 emptyRegistry
      (fun x hx he => h1 x hx (he.trans hname.symm))
    have hr1none : List.lookup n (l1.foldl registerStep emptyRegistry).infos = none := by
      rw [hkeep1.1]; rfl
    have hr1mem : n ∉ (l1.foldl registerStep emptyRegistry).defaultfields := by
      intro hmem
      exact absurd (hkeep1.2.mp hmem) (Finset.not_mem_empty n)
    have hkeep2 := register_fold_keep n l2
      (registerStep (l1.foldl registerStep emptyRegistry) m)
      (fun x hx he => h2 x hx (he.trans hname.symm))
    rw [hkeep2.1, hkeep2.2]
    rcases m with ⟨name, pk, idx, nb, o⟩ | ⟨name, lz, o⟩ | ⟨name, o⟩ | ⟨name, fs⟩
      | ⟨name, fs⟩ | ⟨name, rs⟩ | ⟨name, rs⟩ | ⟨name, rs⟩ <;>
        simp only [Member.name] at hname <;> subst hname
    · by_cases hu : startsUnderscore name = true
      · simp only [registerStep, hu, if_true]
        simp [hr1none, hr1mem]
      · simp only [registerStep, hu, Bool.false_eq_true, if_false]
        rw [lookup_dictSet_self]
        by_cases hcond : ((mergeInfo columndefaults o).public
            && !(mergeInfo columndefaults o).defer) = true
        · simp only [hcond, if_true]
          have hpd : (mergeInfo columndefaults o).public = true
              ∧ (mergeInfo columndefaults o).defer = false := by
            simpa using hcond
          exact iff_of_true (Finset.mem_insert_self name _)
            ⟨mergeInfo columndefaults o, rfl, hpd.1, hpd.2⟩
        · simp only [hcond, Bool.false_eq_true, if_false]
          constructor
          · intro hmem
            exact absurd hmem hr1mem
          · rintro ⟨i, hi, hp, hd⟩
            cases Option.some.inj hi
            have hc2 : ((mergeInfo columndefaults o).public
                && !(mergeInfo columndefaults o).defer) = true := by
              rw [hp, hd]
              rfl
            exact absurd hc2 hcond
    · by_cases hu : startsUnderscore name = true
      · simp only [registerStep, hu, if_true]
        simp [hr1none, hr1mem]
      · simp only [registerStep, hu, Bool.false_eq_true, if_false]
        rw [lookup_dictSet_self]
        by_cases hcond : ((mergeInfo relationshipdefaults o).public
            && !(mergeInfo relationshipdefaults o).defer) = true
        · simp only [hcond, if_true]
          have hpd : (mergeInfo relationshipdefaults o).public = true
              ∧ (mergeInfo relationshipdefaults o).defer = false := by
            simpa using hcond
          exact iff_of_true (Finset.mem_insert_self name _)
            ⟨mergeInfo relationshipdefaults o, rfl, hpd.1, hpd.2⟩
        · simp only [hcond, Bool.false_eq_true, if_false]
          constructor
          · intro hmem
            exact absurd hmem hr1mem
          · rintro ⟨i, hi, hp, hd⟩
            cases Option.some.inj hi
            have hc2 : ((mergeInfo relationshipdefaults o).public
                && !(mergeInfo relationshipdefaults o).defer) = true := by
              rw [hp, hd]
              rfl
            exact absurd hc2 hcond
    · simp only [registerStep]
      by_cases hpub : (mergeInfo columndefaults o).public = true
      · simp only [hpub, if_true]
        rw [lookup_dictSet_self]
        by_cases hdef : (mergeInfo columndefaults o).defer = true
        · simp only [hdef, Bool.not_true, Bool.false_eq_true, if_false]
          constructor
          · intro hmem
            exact absurd hmem hr1mem
          · rintro ⟨i, hi, hp, hd⟩
            cases Option.some.inj hi
            rw [hd] at hdef
            exact Bool.noConfusion hdef
        · have hdef' : (mergeInfo columndefaults o).defer = false := by
            simpa using hdef
          simp only [hdef', Bool.not_false, if_true]
          exact iff_of_true (Finset.mem_insert_self name _)
            ⟨mergeInfo columndefaults o, rfl, hpub, hdef'⟩
      · simp only [hpub, Bool.false_eq_true, if_false]
        simp [hr1none, hr1mem]
    · simp only [registerStep]
      simp [hr1none, hr1mem]
    · simp only [registerStep]
      simp [hr1none, hr1mem]
    · simp only [registerStep]
      simp [hr1none, hr1mem]
    · simp only [registerStep]
      simp [hr1none, hr1mem]
    · simp only [registerStep]
      simp [hr1none, hr1mem]
  · push_neg at hex
    have hall := register_fold_keep n members emptyRegistry hex
    unfold register
    constructor
    · intro hmem
      exact absurd (hall.2.mp hmem) (Finset.not_mem_empty n)
    · rintro ⟨i, hi, _, _⟩
      rw [hall.1] at hi
      exact Option.noConfusion hi

/-! ## Claim theorems -/

/-- C1: for every generated get, put, or delete request whose identifier
resolves to no object, the handler returns NOT-FOUND (404) before any
authorization check runs; in particular a PUT on a non-existent
identifier returns 404 and never 403, whatever the bound authorization
checks would return. -/
theorem C1_resolution_before_authorization
    (checks : List CheckFn) (hooks : List HookFn) (dm : Option String)
    (env : ModelEnv) (payload view_args : List (String × PyVal)) :
    ((get_handler checks hooks dm none).status = 404
      ∧ Ev.authorize ∉ (get_handler checks hooks dm none).events)
    ∧ ((put_handler env checks hooks dm none payload view_args).status = 404
      ∧ (put_handler env checks hooks dm none payload view_args).status ≠ 403
      ∧ Ev.authorize ∉ (put_handler env checks hooks dm none payload view_args).events)
    ∧ ((delete_handler checks hooks dm none).status = 404
      ∧ Ev.authorize ∉ (delete_handler checks hooks dm none).events) := by
  have hp : (put_handler env checks hooks dm none payload view_args).status = 404 := rfl
  refine ⟨⟨rfl, ?_⟩, ⟨hp, by rw [hp]; decide, ?_⟩, ⟨rfl, ?_⟩⟩ <;>
    simp [get_handler, put_handler, delete_handler]

/-- C2: on POST and PUT, when the mutation stage has set the
validation-failure flag, the handler answers 400 carrying the
accumulated messages and never calls `session.add` or `session.commit`;
the event log shows the validation check happening only after the
mutation stage and after every bound pre-return hook. -/
theorem C2_validation_blocks_persistence
    (env : ModelEnv) (checks : List CheckFn) (hooks : List HookFn) (dm : Option String)
    (payload view_args : List (String × PyVal)) (new_obj obj0 : PyObj)
    (hpost : ((auto_update env payload view_args new_obj g0).2.1).failed_validation = true)
    (hput : ((auto_update env payload view_args obj0 g0).2.1).failed_validation = true)
    (hauth_post : authorize_all checks none = true)
    (hauth_put : authorize_all checks (some obj0) = true) :
    ((post_handler env checks hooks dm payload view_args new_obj).status = 400
      ∧ (post_handler env checks hooks dm payload view_args new_obj).session_added = false
      ∧ (post_handler env checks hooks dm payload view_args new_obj).session_committed = false
      ∧ Ev.sAdd ∉ (post_handler env checks hooks dm payload view_args new_obj).events
      ∧ Ev.sCommit ∉ (post_handler env checks hooks dm payload view_args new_obj).events
      ∧ (post_handler env checks hooks dm payload view_args new_obj).events
          = Ev.authorize :: Ev.mutate ::
            (run_hooks_go 0 hooks (auto_update env payload view_args new_obj g0).1
              (auto_update env payload view_args new_obj g0).2.1).2.2 ++ [Ev.validate]
      ∧ (post_handler env checks hooks dm payload view_args new_obj).body_messages
          = api_messages dm
            (run_hooks_go 0 hooks (auto_update env payload view_args new_obj g0).1
              (auto_update env payload view_args new_obj g0).2.1).2.1)
    ∧ ((put_handler env checks hooks dm (some obj0) payload view_args).status = 400
      ∧ (put_handler env checks hooks dm (some obj0) payload view_args).session_committed = false
      ∧ Ev.sCommit ∉ (put_handler env checks hooks dm (some obj0) payload view_args).events
      ∧ (put_handler env checks hooks dm (some obj0) payload view_args).events
          = Ev.authorize :: Ev.mutate ::
            (run_hooks_go 0 hooks (auto_update env payload view_args obj0 g0).1
              (auto_update env payload view_args obj0 g0).2.1).2.2 ++ [Ev.validate]) := by
  have hflag1 : ((run_hooks_go 0 hooks (auto_update env payload view_args new_obj g0).1
      (auto_update env payload view_args new_obj g0).2.1).2.1).failed_validation = true :=
    run_hooks_flag_mono hooks 0 _ _ hpost
  have hflag2 : ((run_hooks_go 0 hooks (auto_update env payload view_args obj0 g0).1
      (auto_update env payload view_args obj0 g0).2.1).2.1).failed_validation = true :=
    run_hooks_flag_mono hooks 0 _ _ hput
  have hA1 : Ev.sAdd ∉ (run_hooks_go 0 hooks (auto_update env payload view_args new_obj g0).1
      (auto_update env payload view_args new_obj g0).2.1).2.2 := by
    intro h
    rcases run_hooks_events_hook hooks 0 _ _ _ h with ⟨j, hj⟩
    exact Ev.noConfusion hj
  have hC1 : Ev.sCommit ∉ (run_hooks_go 0 hooks (auto_update env payload view_args new_obj g0).1
      (auto_update env payload view_args new_obj g0).2.1).2.2 := by
    intro h
    rcases run_hooks_events_hook hooks 0 _ _ _ h with ⟨j, hj⟩
    exact Ev.noConfusion hj
  have hC2 : Ev.sCommit ∉ (run_hooks_go 0 hooks (auto_update env payload view_args obj0 g0).1
      (auto_update env payload view_args obj0 g0).2.1).2.2 := by
    intro h
    rcases run_hooks_events_hook hooks 0 _ _ _ h with ⟨j, hj⟩
    exact Ev.noConfusion hj
  constructor
  · simp only [post_handler, hauth_post, Bool.not_true, Bool.false_eq_true, if_false, hflag1,
      if_true]
    simp [hA1, hC1]
  · simp only [put_handler, hauth_put, Bool.not_true, Bool.false_eq_true, if_false, hflag2,
      if_true]
    simp [hC2]

/-- Witness for C2 at a concrete failing POST/PUT. -/
theorem C2_validation_blocks_persistence_witness :
    (post_handler exEnvC2 [] [] none [("slug", some "x")] [] []).status = 400
    ∧ (post_handler exEnvC2 [] [] none [("slug", some "x")] [] []).session_added = false
    ∧ (put_handler exEnvC2 [] [] none (some []) [("slug", some "x")] []).status = 400
    ∧ (put_handler exEnvC2 [] [] none (some []) [("slug", some "x")] []).session_committed
        = false := by
  have h := C2_validation_blocks_persistence exEnvC2 [] [] none [("slug", some "x")] [] [] []
    rfl rfl rfl rfl
  exact ⟨h.1.1, h.1.2.1, h.2.1, h.2.2.1⟩

/-- C3 (evidence for the code bug): on `sort=title` with `title` not
indexed, `_get_results` does build its BAD-REQUEST `(jsonify(...), 400)`
return value, but `index` unpacks that two-element tuple into
`objects, total, has_next`, so the assignment raises ValueError and the
request fails with a server error instead of the claimed 400. -/
theorem C3_sort_rejection_bug :
    get_results exM3 [("sort", "title")] exRows3 = .ok .bad
    ∧ index_handler exM3 [] [] none [("sort", "title")] exRows3 = .error .valueError :=
  ⟨rfl, rfl⟩

/-- C4 (counterexample): with `__maxresults__ = 1`, two matching rows and
no `per_page` argument, `_get_results` paginates with the configured
maximum as the page size — it returns one row with `has_next = true`,
not all matching rows with `has_next = false` as the claim states. -/
theorem C4_counterexample :
    get_results exM4 [] [exRow41, exRow42] = .ok (.res [exRow41] 2 true)
    ∧ get_results exM4 [] [exRow41, exRow42] ≠ .ok (.res [exRow41, exRow42] 2 false) :=
  ⟨rfl, by decide⟩

/-- C4 (amended): when the sort stage is inactive, a supplied `per_page`
exceeding a configured nonzero `__maxresults__` makes `_get_results`
produce its BAD-REQUEST signal, and with no `per_page` and no configured
maximum it returns all matching rows with `has_next = false`.  (With no
`per_page` but a configured maximum, the maximum becomes the page size,
as the counterexample shows.) -/
theorem C4_pagination_amended (m : IndexModel) (args : List (String × String))
    (rows : List PyObj)
    (hsort : truthyO (pyOrStr (argsGet args "sort") m.sort_default) = false) :
    (∀ (s : String) (pp mx : Nat), argsGet args "per_page" = some s →
        pyInt s = some pp → m.max_results = some mx → 0 < mx → mx < pp →
        get_results m args rows = .ok .bad)
    ∧ (argsGet args "per_page" = none → m.max_results = none →
        get_results m args rows
          = .ok (.res (apply_filters m args rows) (apply_filters m args rows).length false)) := by
  constructor
  · intro s pp mx h1 h2 h3 h4 h5
    simp only [get_results, hsort, Bool.false_eq_true, if_false, h1, h2, h3]
    have hcap : (decide (0 < mx) && decide (mx < pp)) = true := by
      simp [h4, h5]
    simp [hcap]
  · intro h1 h3
    simp only [get_results, hsort, Bool.false_eq_true, if_false, h1, h3]
    rfl

/-- Witness for the amended C4: an over-cap `per_page` yields the 400
signal, and with no `per_page` and no maximum every row comes back with
`has_next = false`. -/
theorem C4_pagination_amended_witness :
    get_results exM4 [("per_page", "5")] [exRow41] = .ok .bad
    ∧ get_results exM4N [] [exRow41, exRow42]
        = .ok (.res (apply_filters exM4N [] [exRow41, exRow42])
            (apply_filters exM4N [] [exRow41, exRow42]).length false) :=
  ⟨(C4_pagination_amended exM4 [("per_page", "5")] [exRow41] rfl).1 "5" 5 1 rfl (by decide)
      rfl (by decide) (by decide),
   (C4_pagination_amended exM4N [] [exRow41, exRow42] rfl).2 rfl rfl⟩

/-- C5 (counterexample): with an `only` parameter supplied but empty, the
code treats it as absent (Python truthiness) and resolves
defaults-plus-include, while the claim's resolution rule (whitelist
intersected with known fields whenever `only` is supplied) yields the
empty set. -/
theorem C5_counterexample :
    (get_included_fields exInfos5 {"a"} exArgs5 "M" []).1 = {"a", "b"}
    ∧ claimedFieldSet exInfos5 {"a"} exArgs5 = (∅ : Finset String)
    ∧ (get_included_fields exInfos5 {"a"} exArgs5 "M" []).1
        ≠ claimedFieldSet exInfos5 {"a"} exArgs5 :=
  ⟨by decide, by decide, by decide⟩

/-- C5 (amended): with empty parameters counting as absent, the resolved
set is the `only` whitelist intersected with known fields when a
non-empty `only` is supplied, else defaults unioned with the known
`include` fields minus the `defer` fields; the result is stored in the
per-request cache under the class name, and any later call for a cached
class returns the cached set without recomputation. -/
theorem C5_field_resolution_amended
    (infos : List (String × ApiInfo)) (defaults : Finset String)
    (args : List (String × String)) (clsName : String)
    (cache : List (String × Finset String))
    (hc : List.lookup clsName cache = none) :
    (get_included_fields infos defaults args clsName cache).1
        = amendedFieldSet infos defaults args
    ∧ (get_included_fields infos defaults args clsName cache).2
        = dictSet cache clsName (amendedFieldSet infos defaults args)
    ∧ ∀ (fs : Finset String) (cache2 : List (String × Finset String)),
        List.lookup clsName cache2 = some fs →
        get_included_fields infos defaults args clsName cache2 = (fs, cache2) := by
  have hmain : (let only_fields := argsGet args "only"
      if truthyO only_fields then
        ((splitComma (only_fields.getD "")).filter (knownField infos)).toFinset
      else
        let fields := defaults
        let include_fields := argsGet args "include"
        let fields :=
          if truthyO include_fields then
            fields ∪ ((splitComma (include_fields.getD "")).filter (knownField infos)).toFinset
          else fields
        let defer_fields := argsGet args "defer"
        let fields :=
          if truthyO defer_fields then
            fields \ (splitComma (defer_fields.getD "")).toFinset
          else fields
        fields) = amendedFieldSet infos defaults args := by
    unfold amendedFieldSet
    by_cases h1 : truthyO (argsGet args "only") = true
    · rw [if_pos h1, if_pos h1]
    · rw [if_neg h1, if_neg h1]
      by_cases h2 : truthyO (argsGet args "include") = true <;>
        by_cases h3 : truthyO (argsGet args "defer") = true <;>
          simp [h2, h3, Finset.union_empty, Finset.sdiff_empty]
  refine ⟨?_, ?_, ?_⟩
  · simp only [get_included_fields, hc]
    exact hmain
  · simp only [get_included_fields, hc]
    rw [hmain]
  · intro fs cache2 h2
    simp [get_included_fields, h2]

/-- Witness for the amended C5 at a concrete request with a fresh cache. -/
theorem C5_field_resolution_amended_witness :
    (get_included_fields exInfos5 {"a"} [("include", "b")] "M" []).1
        = amendedFieldSet exInfos5 {"a"} [("include", "b")] :=
  (C5_field_resolution_amended exInfos5 {"a"} [("include", "b")] "M" [] rfl).1

/-- C6: after registration, a declared and introspected attribute is in
the model's default-visible set exactly when its resolved api-info is
public and not deferred, and the resolved api-info of a column or
relationship attribute is the kind-specific defaults (columns
public/non-deferred, relationships private/deferred) merged with its
declaration-time overrides. -/
theorem C6_default_visibility (members : List Member)
    (hnd : (members.map Member.name).Nodup) (n : String) :
    (n ∈ (register members).defaultfields ↔
      ∃ i, List.lookup n (register members).infos = some i
        ∧ i.public = true ∧ i.defer = false)
    ∧ (∀ (pk idx nb : Bool) (o : InfoOverride),
        Member.column n pk idx nb o ∈ members → startsUnderscore n = false →
        List.lookup n (register members).infos = some (mergeInfo columndefaults o))
    ∧ (∀ (lz : Bool) (o : InfoOverride),
        Member.relationship n lz o ∈ members → startsUnderscore n = false →
        List.lookup n (register members).infos = some (mergeInfo relationshipdefaults o)) :=
  ⟨register_defaultfields_iff members hnd n,
   fun pk idx nb o hm hu => register_infos_column members hnd n pk idx nb o hm hu,
   fun lz o hm hu => register_infos_relationship members hnd n lz o hm hu⟩

/-- Witness for C6 at the concrete member list. -/
theorem C6_default_visibility_witness :
    "id" ∈ (register exMembers6).defaultfields
    ∧ "pw_hash" ∉ (register exMembers6).defaultfields := by
  constructor
  · exact ((C6_default_visibility exMembers6 (by decide) "id").1).mpr
      ⟨mergeInfo columndefaults noOverride, rfl, rfl, rfl⟩
  · intro hmem
    rcases ((C6_default_visibility exMembers6 (by decide) "pw_hash").1).mp hmem
      with ⟨i, hi, hp, _⟩
    rw [(rfl : List.lookup "pw_hash" (register exMembers6).infos
      = some (mergeInfo columndefaults ⟨some false, none, none, none, none, none⟩))] at hi
    cases Option.some.inj hi
    exact absurd hp (by decide)

/-- C7 (counterexample): registering a model whose `images` column is
server-set with no declared setter completes normally — the registry
carries the field with `set_by='server'` and an empty `__setters__`
entry, no configuration error exists anywhere in `register` — and a
later mutation pass silently leaves the object and the validation state
untouched (the `_set_field_value` call finds no setter and, with
`try_auto=False`, does nothing). -/
theorem C7_counterexample :
    List.lookup "images" (register exMembers7).infos
        = some (mergeInfo columndefaults ⟨none, none, some (some "server"), none, none, none⟩)
    ∧ List.lookup "images" (register exMembers7).setters = none
    ∧ auto_update exEnv7 [("images", some "hack")] [] [("images", none)] g0
        = ([("images", none)], g0, [⟨"images", none, false⟩]) :=
  ⟨rfl, rfl, rfl⟩

/-- C7 (amended): registration performs no server-only/setter
consistency check — `register` is total and the counterexample above
registers such a model without error — and at mutation time a
server-set field whose setter cannot be resolved is left silently
unchanged with no validation failure; moreover every invocation of a
server-set-only field name carries no client value and forbids the
direct-assignment fallback, so server-only fields are never assigned
from the client payload. -/
theorem C7_server_only_silently_skipped (env : ModelEnv) :
    (∀ (obj : PyObj) (st : GState) (name : String) (value : PyVal),
        resolveSetter env name = none →
        set_field_value env obj st name value false = (obj, st))
    ∧ ∀ (payload view_args : List (String × PyVal)) (obj : PyObj) (st : GState)
        (inv : Invocation),
        inv ∈ (auto_update env payload view_args obj st).2.2 →
        (∀ c ∈ env.cols, c.name = inv.field → c.set_by = some "server") →
        inv.value = none ∧ inv.try_auto = false := by
  constructor
  · intro obj st name value hr
    simp [set_field_value, hr]
  · intro payload view_args obj st inv hmem hserver
    rcases (auto_update_go_trace env payload view_args env.cols obj st inv).mp hmem
      with ⟨c, hc, hf, hrest⟩
    have hcs := hserver c hc hf.symm
    rcases hrest with ⟨hb, _⟩ | ⟨hb, _⟩ | ⟨_, hv, ht⟩
    · rw [hcs] at hb
      simp at hb
    · rw [hcs] at hb
      simp at hb
    · exact ⟨hv, ht⟩

/-- Witness for the amended C7 at the counterexample model. -/
theorem C7_server_only_silently_skipped_witness :
    set_field_value exEnv7 [("images", none)] g0 "images" (some "hack") false
      = ([("images", none)], g0) :=
  (C7_server_only_silently_skipped exEnv7).1 [("images", none)] g0 "images" (some "hack") rfl

/-- C8: the URL rule built by `Router.build_rule` equals the in-order
slash-joined concatenation of the effective route prefix, the resolved
route base and the route's own fragment, with every run of adjacent
slashes collapsed to one and any trailing slash stripped. -/
theorem C8_build_rule_path (route_pfx_cls cfg_pfx route_base_attr tablename : Option String)
    (clsName rule : String) :
    build_rule route_pfx_cls cfg_pfx route_base_attr tablename clsName rule
      = rstripSlash (collapseS ("/" ++ (pyOrStr route_pfx_cls cfg_pfx).getD ""
          ++ "/" ++ get_route_base route_base_attr tablename clsName ++ "/" ++ rule)) := by
  have hslash : ("/" : String).data = ['/'] := rfl
  have hemp : ("" : String).data = [] := rfl
  simp only [build_rule]
  rcases hp : pyOrStr route_pfx_cls cfg_pfx with _ | ps
  · by_cases hb : strEmpty (get_route_base route_base_attr tablename clsName) = true
    · have hbd := (strEmpty_iff _).mp hb
      simp only [hb, if_true, Option.getD_none, List.nil_append, List.cons_append, pyJoin,
        List.foldl_nil]
      refine collapse_congr _ _ ?_
      rw [show ("/" ++ rule).data = [] ++ '/' :: rule.data from by
        simp [str_data_append, hslash]]
      rw [show ("/" ++ "" ++ "/" ++ get_route_base route_base_attr tablename clsName
            ++ "/" ++ rule).data = [] ++ '/' :: '/' :: ([] ++ '/' :: rule.data) from by
        simp [str_data_append, hslash, hemp, hbd]]
      rw [collapseL_double]
      rw [show ([] : List Char) ++ '/' :: ([] ++ '/' :: rule.data)
          = [] ++ '/' :: '/' :: rule.data from by simp]
      rw [collapseL_double]
    · simp only [hb, Bool.false_eq_true, if_false, Option.getD_none, List.nil_append,
        List.cons_append, pyJoin, List.foldl_cons, List.foldl_nil]
      refine collapse_congr _ _ ?_
      rw [show ("/" ++ (get_route_base route_base_attr tablename clsName ++ "/" ++ rule)).data
            = [] ++ '/' :: ((get_route_base route_base_attr tablename clsName).data
              ++ '/' :: rule.data) from by simp [str_data_append, hslash]]
      rw [show ("/" ++ "" ++ "/" ++ get_route_base route_base_attr tablename clsName
            ++ "/" ++ rule).data
            = [] ++ '/' :: '/' :: ((get_route_base route_base_attr tablename clsName).data
              ++ '/' :: rule.data) from by simp [str_data_append, hslash, hemp]]
      rw [collapseL_double]
  · by_cases hps : strEmpty ps = true
    · have hpd := (strEmpty_iff _).mp hps
      by_cases hb : strEmpty (get_route_base route_base_attr tablename clsName) = true
      · have hbd := (strEmpty_iff _).mp hb
        simp only [hps, hb, if_true, Option.getD_some, List.nil_append, List.cons_append,
          pyJoin, List.foldl_nil]
        refine collapse_congr _ _ ?_
        rw [show ("/" ++ rule).data = [] ++ '/' :: rule.data from by
          simp [str_data_append, hslash]]
        rw [show ("/" ++ ps ++ "/" ++ get_route_base route_base_attr tablename clsName
              ++ "/" ++ rule).data = [] ++ '/' :: '/' :: ([] ++ '/' :: rule.data) from by
          simp [str_data_append, hslash, hpd, hbd]]
        rw [collapseL_double]
        rw [show ([] : List Char) ++ '/' :: ([] ++ '/' :: rule.data)
            = [] ++ '/' :: '/' :: rule.data from by simp]
        rw [collapseL_double]
      · simp only [hps, hb, Bool.false_eq_true, if_false, if_true, Option.getD_some,
          List.nil_append, List.cons_append, pyJoin, List.foldl_cons, List.foldl_nil]
        refine collapse_congr _ _ ?_
        rw [show ("/" ++ (get_route_base route_base_attr tablename clsName ++ "/" ++ rule)).data
              = [] ++ '/' :: ((get_route_base route_base_attr tablename clsName).data
                ++ '/' :: rule.data) from by simp [str_data_append, hslash]]
        rw [show ("/" ++ ps ++ "/" ++ get_route_base route_base_attr tablename clsName
              ++ "/" ++ rule).data
              = [] ++ '/' :: '/' :: ((get_route_base route_base_attr tablename clsName).data
                ++ '/' :: rule.data) from by simp [str_data_append, hslash, hpd]]
        rw [collapseL_double]
    · by_cases hb : strEmpty (get_route_base route_base_attr tablename clsName) = true
      · have hbd := (strEmpty_iff _).mp hb
        simp only [hps, hb, Bool.false_eq_true, if_false, if_true, Option.getD_some,
          List.nil_append, List.cons_append, pyJoin, List.foldl_cons, List.foldl_nil]
        refine collapse_congr _ _ ?_
        rw [show ("/" ++ (ps ++ "/" ++ rule)).data
              = ('/' :: ps.data) ++ '/' :: rule.data from by simp [str_data_append, hslash]]
        rw [show ("/" ++ ps ++ "/" ++ get_route_base route_base_attr tablename clsName
              ++ "/" ++ rule).data
              = ('/' :: ps.data) ++ '/' :: '/' :: rule.data from by
          simp [str_data_append, hslash, hbd]]
        rw [collapseL_double]
      · simp only [hps, hb, Bool.false_eq_true, if_false, List.nil_append, List.cons_append,
          pyJoin, List.foldl_cons, List.foldl_nil, Option.getD_some]
        refine collapse_congr _ _ ?_
        simp [str_data_append, hslash]

/-- C9: after the mutation stage, columns not set by the client payload
are independent of same-named payload keys — two payloads agreeing on
the json-set columns' keys produce the same object, flag state and
invocation record — and an invocation receives a payload value only for
a json-set column whose key is present (url-set columns read the path
arguments, server-set columns are invoked with no value). -/
theorem C9_nonjson_columns_payload_independent
    (env : ModelEnv) (p1 p2 view_args : List (String × PyVal)) (obj : PyObj) (st : GState)
    (h : ∀ c ∈ env.cols, c.set_by = some "json" →
      List.lookup c.name p1 = List.lookup c.name p2) :
    auto_update env p1 view_args obj st = auto_update env p2 view_args obj st
    ∧ ∀ (p : List (String × PyVal)) (inv : Invocation),
        inv ∈ (auto_update env p view_args obj st).2.2 ↔
          ∃ c ∈ env.cols, invSpec p view_args c inv :=
  ⟨auto_update_go_agree env p1 p2 view_args env.cols obj st h,
   fun p inv => auto_update_go_trace env p view_args env.cols obj st inv⟩

/-- Witness for C9: perturbing payload keys of non-json columns changes
nothing. -/
theorem C9_nonjson_columns_payload_independent_witness :
    auto_update exEnv9 [("title", some "a"), ("slug", some "evil")] [] [] g0
      = auto_update exEnv9 [("title", some "a"), ("images", some "evil")] [] [] g0 :=
  (C9_nonjson_columns_payload_independent exEnv9
    [("title", some "a"), ("slug", some "evil")]
    [("title", some "a"), ("images", some "evil")] [] [] g0 (by decide)).1

/-- C10: a column registered private (`public=False`) still lands in the
model's known-field map, so naming it in the `only` query parameter puts
it into the resolved included-field set and `as_dict` serializes its raw
attribute value into the response. -/
theorem C10_private_fields_exposed_by_request (members : List Member)
    (hnd : (members.map Member.name).Nodup)
    (n : String) (pk idx nb : Bool) (o : InfoOverride)
    (hm : Member.column n pk idx nb o ∈ members)
    (hu : startsUnderscore n = false)
    (hpriv : (mergeInfo columndefaults o).public = false)
    (hsplit : splitComma n = [n])
    (obj : PyObj) (v : PyVal) (gm : String → PyObj → String → PyVal)
    (moreJson : List (String × PyVal))
    (hval : List.lookup n obj = some v)
    (hmj : List.lookup n moreJson = none)
    (hng : List.lookup n (register members).getters = none)
    (hne : strEmpty n = false) :
    List.lookup n (register members).infos = some (mergeInfo columndefaults o)
    ∧ (mergeInfo columndefaults o).public = false
    ∧ n ∈ (get_included_fields (register members).infos (register members).defaultfields
        [("only", n)] "M" []).1
    ∧ List.lookup n
        (as_dict (register members).defaultfields
          (get_included_fields (register members).infos (register members).defaultfields
            [("only", n)] "M" []).1
          false (register members).getters gm obj moreJson) = some v := by
  have hinfo := register_infos_column members hnd n pk idx nb o hm hu
  have hknown : knownField (register members).infos n = true := by
    simp [knownField, hinfo]
  have honly : argsGet [("only", n)] "only" = some n := lookup_cons_self _ _ _
  have hres : (get_included_fields (register members).infos (register members).defaultfields
      [("only", n)] "M" []).1
      = ((splitComma n).filter (knownField (register members).infos)).toFinset := by
    simp only [get_included_fields, List.lookup, honly, truthyO, hne, Bool.not_false, if_true,
      Option.getD_some]
  have hmem : n ∈ (get_included_fields (register members).infos
      (register members).defaultfields [("only", n)] "M" []).1 := by
    rw [hres, hsplit]
    simp [hknown]
  refine ⟨hinfo, hpriv, hmem, ?_⟩
  unfold as_dict
  simp only [Bool.false_eq_true, if_false]
  rw [lookup_foldl_dictSet _ _ _ hmj]
  rw [lookup_pair_map _ _ _ ((Finset.mem_sort _).mpr hmem)]
  simp [get_field_value, hng, auto_get, hval]

/-- Witness for C10: the private `secret` column of the witness model is
resolved into the field set by `only=secret` and serialized raw. -/
theorem C10_private_fields_exposed_by_request_witness :
    "secret" ∈ (get_included_fields (register exMembers10).infos
        (register exMembers10).defaultfields [("only", "secret")] "M" []).1
    ∧ List.lookup "secret"
        (as_dict (register exMembers10).defaultfields
          (get_included_fields (register exMembers10).infos
            (register exMembers10).defaultfields [("only", "secret")] "M" []).1
          false (register exMembers10).getters (fun _ _ _ => none)
          [("secret", some "s3")] []) = some (some "s3") := by
  have h := C10_private_fields_exposed_by_request exMembers10 (by decide) "secret"
    false false false ⟨some false, none, none, none, none, none⟩
    (by decide) rfl rfl rfl
    [("secret", some "s3")] (some "s3") (fun _ _ _ => none) [] rfl rfl rfl rfl
  exact ⟨h.2.2.1, h.2.2.2⟩
